import Mathlib

/-!
Verification development for the ws-key-auth repository.

The embedding below models:
* the browser-side base64 codec (`encodeBase64` / `decodeBase64` in
  `src/browser/src/lib.ts`),
* the Go standard base64 codec used by the server
  (`base64.StdEncoding.EncodeToString` / `DecodeString` in `src/go/lib.go`),
* the client-identifier parser `parseClientID` (`src/go/lib.go`),
* the server handshake state machine `Handshake` (`src/go/lib.go`), with the
  SHA-256 hash and ECDSA verification taken as abstract function parameters
  and the I/O (websocket reads/writes, randomness) made explicit,
* the browser-side handshake message listener (`connect` in
  `src/browser/src/lib.ts`).

Byte strings are `List Nat` (each element a byte value), Go/JS strings that
the codecs manipulate are `List Char`.
-/

set_option maxRecDepth 40000

/-- The 64 proper base64 alphabet characters (RFC 4648 standard alphabet).
This is the string `base64chars` of `decodeBase64` in
`src/browser/src/lib.ts`, and also the alphabet of Go's
`base64.StdEncoding`. -/
def b64Alphabet : List Char :=
  "ABCDEFGHIJKLMNOPQRSTUVWXYZabcdefghijklmnopqrstuvwxyz0123456789+/".data

/-- The 65-character table `base64chars` of `encodeBase64` in
`src/browser/src/lib.ts`: the standard alphabet followed by the padding
character (index 64). -/
def base64chars : List Char := b64Alphabet ++ ['=']

/-- Character lookup `base64chars[v]` (JS indexing into the 65-char table). -/
def b64CharOf (v : Nat) : Char := base64chars.getD v '\x00'

/-- Helper for `b64IndexOf`: position of a character in a list, counting
from `n`. -/
def b64IndexOfAux : List Char → Nat → Char → Option Nat
  | [], _, _ => none
  | a :: rest, n, c => if a = c then some n else b64IndexOfAux rest (n + 1) c

/-- Models `base64chars.indexOf(c)` over the 64-character alphabet of
`decodeBase64` in `src/browser/src/lib.ts` (JS returns -1 when absent,
modelled as `none`), and equally Go's base64 decode map lookup. -/
def b64IndexOf (c : Char) : Option Nat := b64IndexOfAux b64Alphabet 0 c

/-- A character matching the `[A-Za-z0-9+/]` class of the validation regex
in `decodeBase64` (`src/browser/src/lib.ts`); exactly the 64 alphabet
characters. -/
def isB64BodyChar (c : Char) : Bool := (b64IndexOf c).isSome

/-! ## Browser-side base64 encoder (`encodeBase64`, src/browser/src/lib.ts) -/

/-- One iteration of the `while` loop of `encodeBase64`
(`src/browser/src/lib.ts`): consumes up to three bytes (`none` = the read
`bytes[i++]` returned `undefined`, i.e. the buffer ran out) and produces four
characters.  JS bit operations on byte values are rendered arithmetically:
`x >> 2` is `x / 4`, `(x & 0x03) << 4` is `(x % 4) * 16`, `x >> 4` is
`x / 16`, `(x & 0x0f) << 2` is `(x % 16) * 4`, `x >> 6` is `x / 64`,
`x & 0x3f` is `x % 64`. -/
def encodeBase64Chunk (b1 : Nat) (b2opt b3opt : Option Nat) : List Char :=
  let b2 := b2opt.getD 0
  let b3 := b3opt.getD 0
  let padding := (if b2opt.isNone then 1 else 0) + (if b3opt.isNone then 1 else 0)
  let encoded1 := b1 / 4
  let encoded2 := (b1 % 4) * 16 + b2 / 16
  let encoded3 := (b2 % 16) * 4 + b3 / 64
  let encoded4 := b3 % 64
  let encoded3 := if padding = 2 then 64 else encoded3
  let encoded4 := if padding = 1 ∨ padding = 2 then 64 else encoded4
  [b64CharOf encoded1, b64CharOf encoded2, b64CharOf encoded3, b64CharOf encoded4]

/-- The `while` loop of `encodeBase64` (`src/browser/src/lib.ts`) over the
whole byte buffer: three bytes at a time, the final group possibly short. -/
def encodeBase64Chars : List Nat → List Char
  | [] => []
  | [b1] => encodeBase64Chunk b1 none none
  | [b1, b2] => encodeBase64Chunk b1 (some b2) none
  | b1 :: b2 :: b3 :: rest =>
      encodeBase64Chunk b1 (some b2) (some b3) ++ encodeBase64Chars rest

/-- `encodeBase64` of `src/browser/src/lib.ts` as a `String`-producing
function. -/
def encodeBase64 (bytes : List Nat) : String := String.mk (encodeBase64Chars bytes)

/-! ## Browser-side base64 decoder (`decodeBase64`, src/browser/src/lib.ts) -/

/-- The test `base64.match(/^[A-Za-z0-9+/]+={0,2}$/)` of `decodeBase64`
(`src/browser/src/lib.ts`): one or more alphabet characters followed by at
most two `=`. -/
def validB64 (l : List Char) : Bool :=
  let body := l.takeWhile isB64BodyChar
  let rest := l.drop body.length
  !body.isEmpty && (rest == [] || rest == ['='] || rest == ['=', '='])

/-- Models `base64.endsWith(suffix)` for the padding computation of
`decodeBase64` (`src/browser/src/lib.ts`). -/
def listEndsWith (l suffix : List Char) : Bool :=
  l.reverse.take suffix.length == suffix.reverse

/-- One iteration of the decoding `while` loop of `decodeBase64`
(`src/browser/src/lib.ts`): four characters give three byte writes.
JS `indexOf` yields -1 for `=`; every 32-bit computation that involves such
a -1 index produces -1 (stored in the `Uint8Array` as byte 255), because
`x | -1 = -1` and `-1 >> 2 = -1`.  Those positions only ever occur for the
trailing padding of a string accepted by the validation regex, and their
writes are either cut off by the array length or (for the malformed `=` in
third position with a proper fourth character, which the regex rejects)
equal `(3 << 6) | i4 = 192 + i4`.  The final catch-all (a `=` or foreign
character in the first two positions) is unreachable for any input that
passed the regex and has length divisible by four. -/
def decodeB64Group (c1 c2 c3 c4 : Char) : List Nat :=
  match b64IndexOf c1, b64IndexOf c2, b64IndexOf c3, b64IndexOf c4 with
  | some i1, some i2, some i3, some i4 =>
      [i1 * 4 + i2 / 16, (i2 % 16) * 16 + i3 / 4, (i3 % 4) * 64 + i4]
  | some i1, some i2, some i3, none =>
      [i1 * 4 + i2 / 16, (i2 % 16) * 16 + i3 / 4, 255]
  | some i1, some i2, none, some i4 =>
      [i1 * 4 + i2 / 16, 255, 192 + i4]
  | some i1, some i2, none, none =>
      [i1 * 4 + i2 / 16, 255, 255]
  | _, _, _, _ => [255, 255, 255]

/-- The stream of all bytes written by the decoding loop of `decodeBase64`
(`src/browser/src/lib.ts`), before the fixed `Uint8Array` length silently
drops the out-of-bounds writes. -/
def decodeB64Stream : List Char → List Nat
  | c1 :: c2 :: c3 :: c4 :: rest => decodeB64Group c1 c2 c3 c4 ++ decodeB64Stream rest
  | _ => []

/-- `decodeBase64` of `src/browser/src/lib.ts`.  `none` models a thrown
exception: the explicit `throw new Error("Invalid base64 string")` when the
regex does not match, and the `RangeError` raised by
`new Uint8Array((base64.length * 6) / 8 - padding)` when that length is not
an integer (any input length not divisible by four).  Otherwise the result
is the `Uint8Array` of that length: the byte stream truncated to it, since
the JS writes beyond the end of a `Uint8Array` are dropped. -/
def decodeBase64Chars (l : List Char) : Option (List Nat) :=
  if !validB64 l then none
  else if (l.length * 6) % 8 ≠ 0 then none
  else
    let padding : Nat :=
      if listEndsWith l ['=', '='] then 2 else if listEndsWith l ['='] then 1 else 0
    some (List.take (l.length * 6 / 8 - padding) (decodeB64Stream l))

/-- `decodeBase64` of `src/browser/src/lib.ts` on a `String`. -/
def decodeBase64 (s : String) : Option (List Nat) := decodeBase64Chars s.data

/-! ## Go standard base64 codec (base64.StdEncoding, used in src/go/lib.go) -/

/-- Go `base64.StdEncoding.EncodeToString`: big-endian 24-bit groups split
into 6-bit values, the final short group zero-extended and `=`-padded. -/
def stdEncodeToString : List Nat → List Char
  | [] => []
  | [b1] => [b64CharOf (b1 / 4), b64CharOf ((b1 % 4) * 16), '=', '=']
  | [b1, b2] =>
      [b64CharOf (b1 / 4), b64CharOf ((b1 % 4) * 16 + b2 / 16),
       b64CharOf ((b2 % 16) * 4), '=']
  | b1 :: b2 :: b3 :: rest =>
      [b64CharOf (b1 / 4), b64CharOf ((b1 % 4) * 16 + b2 / 16),
       b64CharOf ((b2 % 16) * 4 + b3 / 64), b64CharOf (b3 % 64)]
      ++ stdEncodeToString rest

/-- The quantum loop of Go `base64.StdEncoding.DecodeString` (after newline
filtering): complete four-character groups; `=` padding admitted only in the
last group, in the final one or two positions; anything else (including an
incomplete trailing group) is a `CorruptInputError`, modelled as `none`. -/
def stdDecodeGroups : List Char → Option (List Nat)
  | [] => some []
  | c1 :: c2 :: c3 :: c4 :: rest =>
      match b64IndexOf c1, b64IndexOf c2, b64IndexOf c3, b64IndexOf c4 with
      | some i1, some i2, some i3, some i4 =>
          match stdDecodeGroups rest with
          | some tail =>
              some ((i1 * 4 + i2 / 16) :: ((i2 % 16) * 16 + i3 / 4) ::
                    ((i3 % 4) * 64 + i4) :: tail)
          | none => none
      | some i1, some i2, some i3, none =>
          if c4 = '=' ∧ rest = [] then
            some [i1 * 4 + i2 / 16, (i2 % 16) * 16 + i3 / 4]
          else none
      | some i1, some i2, none, none =>
          if c3 = '=' ∧ c4 = '=' ∧ rest = [] then some [i1 * 4 + i2 / 16]
          else none
      | _, _, _, _ => none
  | _ => none

/-- Go `base64.StdEncoding.DecodeString` (`src/go/lib.go` call sites): the
decoder skips carriage returns and newlines, then decodes complete
quanta.  The Go error value (a `CorruptInputError` carrying a byte offset)
is modelled as `none`. -/
def stdDecodeString (l : List Char) : Option (List Nat) :=
  stdDecodeGroups (l.filter (fun c => c ≠ '\n' ∧ c ≠ '\r'))

/-! ## Client identifier parsing (`parseClientID`, src/go/lib.go) -/

/-- Go `strings.Split(s, sep)` for a one-character separator. -/
def splitOnChar (sep : Char) : List Char → List (List Char)
  | [] => [[]]
  | c :: rest =>
    let r := splitOnChar sep rest
    if c = sep then [] :: r
    else
      match r with
      | [] => [[c]]
      | h :: t => (c :: h) :: t

/-- Go `(&big.Int{}).SetBytes`: interpret a byte slice as a big-endian
unsigned integer. -/
def bigIntSetBytes (bs : List Nat) : Nat := bs.foldl (fun acc b => acc * 256 + b) 0

/-- An `ecdsa.PublicKey` as constructed by `parseClientID`
(`src/go/lib.go`): coordinates as unbounded integers plus the curve tag
(always `elliptic.P256()` there, recorded as the name string). -/
structure PublicKey where
  X : Nat
  Y : Nat
  Curve : String
deriving DecidableEq

/-- The scheme tag `"WebCrypto-raw.EC.P-256"` checked by `parseClientID`. -/
def clientIDTag : List Char := "WebCrypto-raw.EC.P-256".data

/-- `parseClientID` of `src/go/lib.go`: split on `$`, check the scheme tag,
base64-decode, check length 65 and leading byte 4, then read the two
32-byte big-endian coordinates `buff[1:33]` and `buff[33:]`. -/
def parseClientID (clientID : List Char) : Except String PublicKey :=
  let s := splitOnChar '$' clientID
  if s.length ≠ 2 then
    .error ("expected client ID to have exactly one $. The client ID: " ++ String.mk clientID)
  else if s.getD 0 [] ≠ clientIDTag then
    .error ("expected client ID to have prefix WebCrypto-raw.EC.P-256. The client ID: " ++ String.mk clientID)
  else
    match stdDecodeString (s.getD 1 []) with
    | none => .error "illegal base64 data"
    | some buff =>
      if buff.length ≠ 65 then .error "expected P-256 key of ID to be 65 bytes long"
      else if buff.headD 0 ≠ 4 then
        .error "expected P-256 key of ID to have 0x04 as the first byte"
      else
        .ok ⟨bigIntSetBytes ((buff.drop 1).take 32), bigIntSetBytes (buff.drop 33), "P-256"⟩

/-- The prime modulus of the NIST P-256 curve (`elliptic.P256()`). -/
def p256P : Nat := 2 ^ 256 - 2 ^ 224 + 2 ^ 192 + 2 ^ 96 - 1

/-- The curve constant B of NIST P-256. -/
def p256B : Nat :=
  0x5ac635d8aa3a93e7b3ebbd55769886bc651d06b0cc53b0f63bce3c3e27d2604b

/-- Membership of a coordinate pair on the NIST P-256 curve
(`elliptic.Curve.IsOnCurve`): coordinates reduced modulo the prime and
`y^2 ≡ x^3 - 3x + B (mod p)`. -/
def onCurveP256 (x y : Nat) : Prop :=
  x < p256P ∧ y < p256P ∧
    (y * y) % p256P = (x * x * x + (p256P - 3) * x + p256B) % p256P

instance (x y : Nat) : Decidable (onCurveP256 x y) := by
  unfold onCurveP256; infer_instance

/-! ## Server handshake (`Handshake`, src/go/lib.go) -/

/-- The `data` payload of a received envelope, as far as the two
`json.Unmarshal` calls of `Handshake` (`src/go/lib.go`) observe it: a JSON
string, a JSON object carrying the `signature`/`hash` fields of a
`CHALLENGE_RESPONSE` (Go leaves a missing field at its zero value `""`), or
a value on which the attempted unmarshalling fails. -/
inductive JsonData where
  | jstr (s : List Char)
  | jobj (signature : List Char) (hash : List Char)
  | jbad
deriving DecidableEq

/-- Outcome of one `conn.ReadJSON(&td)` call in `Handshake`
(`src/go/lib.go`): a transport read / JSON parse error, or a decoded
`TypeData` envelope. -/
inductive ReadResult where
  | rerr (e : String)
  | rok (type : String) (data : JsonData)
deriving DecidableEq

/-- Payload of an envelope written by `conn.WriteJSON` in `Handshake`
(`src/go/lib.go`): absent, a plain string, or the
`{message, error}` record (with the `error` entry optional). -/
inductive OutData where
  | odNone
  | odStr (s : String)
  | odKV (message : String) (error : Option String)
deriving DecidableEq

/-- An envelope written by `conn.WriteJSON` in `Handshake`
(`src/go/lib.go`). -/
structure OutMsg where
  type : String
  data : OutData
deriving DecidableEq

/-- Arguments of the single `ecdsa.Verify(pubKey, hashedPayload[:], r, s)`
call of `Handshake` (`src/go/lib.go`). -/
structure VerifyCall where
  pub : PublicKey
  hash : List Nat
  r : Nat
  s : Nat
deriving DecidableEq

/-- Observable result of one run of `Handshake` (`src/go/lib.go`): the
returned triple (authenticated flag, client ID string, error — `none` for
Go's `nil`), together with the envelopes written to the connection and the
ECDSA verification invocation, if one happened. -/
structure HandshakeResult where
  ok : Bool
  clientID : List Char
  err : Option String
  sent : List OutMsg
  verified : Option VerifyCall
deriving DecidableEq

/-- The declared challenge length of `src/go/lib.go`. -/
def challengeByteLength : Nat := 128

/-- `getChallengePayload` of `src/go/lib.go`.  `randRead` is the outcome of
`rand.Read(b)` on the 128-byte buffer: an error, or the bytes read (in Go
the buffer always has length 128, and the read count is checked against
`challengeByteLength`). -/
def getChallengePayload (randRead : Except String (List Nat)) : Except String (List Nat) :=
  match randRead with
  | .error e => .error e
  | .ok b => if b.length < challengeByteLength then .error "failed to read random numbers" else .ok b

/-- The first `json.Unmarshal(td.Data, &clientID)` of `Handshake`
(`src/go/lib.go`): succeeds exactly on a JSON string. -/
def unmarshalString : JsonData → Except String (List Char)
  | .jstr s => .ok s
  | _ => .error "json: cannot unmarshal value into Go value of type string"

/-- The second `json.Unmarshal(td.Data, &challengeResponse)` of `Handshake`
(`src/go/lib.go`): succeeds on a JSON object, yielding the
`signature` and `hash` fields. -/
def unmarshalChallengeResponse : JsonData → Except String (List Char × List Char)
  | .jobj signature hash => .ok (signature, hash)
  | _ => .error "json: cannot unmarshal value into Go value of type struct"

/-- `Handshake` of `src/go/lib.go`, with the cryptographic primitives
abstract (`sha256` is `sha256.Sum256`, `ecdsaVerify` is `ecdsa.Verify`),
the randomness given by `randRead` and the two `conn.ReadJSON` results
given by `read1`/`read2` (`read2` is ignored on runs that end earlier).
Two source branches have no counterpart here: the `pubKey == nil` check
(unreachable, since `parseClientID` never returns a nil key with a nil
error) and the second `if err != nil` after `EncodeToString` (dead code:
`err` is still nil at that point).  Errors returned by `conn.WriteJSON`
are discarded by the source, so writes always succeed in the model. -/
def Handshake (sha256 : List Nat → List Nat)
    (ecdsaVerify : PublicKey → List Nat → Nat → Nat → Bool)
    (randRead : Except String (List Nat))
    (read1 read2 : ReadResult) : HandshakeResult :=
  match read1 with
  | .rerr e => ⟨false, [], some e, [], none⟩
  | .rok ty data =>
    if ty ≠ "CLIENT_ID" then
      ⟨false, [], none,
       [⟨"CLIENT_ERROR", .odStr ("Expected a CLIENT_ID event, but got " ++ ty)⟩], none⟩
    else
      match unmarshalString data with
      | .error e =>
          ⟨false, [], some e,
           [⟨"CLIENT_ERROR", .odKV "Failed to parse CLIENT_ID" (some e)⟩], none⟩
      | .ok clientID =>
        match parseClientID clientID with
        | .error e =>
            ⟨false, clientID, some e,
             [⟨"CLIENT_ERROR", .odKV "Failed to parse CLIENT_ID" (some e)⟩], none⟩
        | .ok pubKey =>
          match getChallengePayload randRead with
          | .error e => ⟨false, clientID, some e, [], none⟩
          | .ok payload =>
            let challenge := stdEncodeToString payload
            let sent0 : List OutMsg := [⟨"CHALLENGE", .odStr (String.mk challenge)⟩]
            match read2 with
            | .rerr e =>
                ⟨false, clientID, some e,
                 sent0 ++ [⟨"SERVER_ERROR", .odKV "Failed to read CHALLENGE_RESPONSE" (some e)⟩],
                 none⟩
            | .rok ty2 data2 =>
              if ty2 ≠ "CHALLENGE_RESPONSE" then
                ⟨false, clientID, none,
                 sent0 ++ [⟨"CLIENT_ERROR", .odStr ("Expected a CHALLENGE_RESPONSE event, but got " ++ ty2)⟩],
                 none⟩
              else
                match unmarshalChallengeResponse data2 with
                | .error e =>
                    ⟨false, clientID, some e,
                     sent0 ++ [⟨"CLIENT_ERROR", .odKV "Failed to parse CHALLENGE_RESPONSE" (some e)⟩],
                     none⟩
                | .ok (signature, hash) =>
                  if hash ≠ "SHA-256".data then
                    ⟨false, clientID, none,
                     sent0 ++ [⟨"UNSUPPORTED_HASH",
                       .odStr ("Got hash of type " ++ String.mk hash ++
                         ", but the only supported hash currently is SHA-256 (more coming soon!)")⟩],
                     none⟩
                  else
                    match stdDecodeString signature with
                    | none =>
                        ⟨false, clientID, some "illegal base64 data",
                         sent0 ++ [⟨"CLIENT_ERROR",
                           .odKV "Failed to parse CHALLENGE_RESPONSE" (some "illegal base64 data")⟩],
                         none⟩
                    | some sig =>
                      if sig.length ≠ 64 then
                        ⟨false, clientID, none,
                         sent0 ++ [⟨"SIGNATURE_MISMATCH",
                           .odStr ("Expected a 64 byte signature, but got " ++
                             toString sig.length ++ " bytes")⟩],
                         none⟩
                      else
                        let r := bigIntSetBytes (sig.take 32)
                        let s := bigIntSetBytes (sig.drop 32)
                        let hashedPayload := sha256 payload
                        if ecdsaVerify pubKey hashedPayload r s then
                          ⟨true, clientID, none, sent0 ++ [⟨"SIGNATURE_MATCHES", .odNone⟩],
                           some ⟨pubKey, hashedPayload, r, s⟩⟩
                        else
                          ⟨false, clientID, none, sent0 ++ [⟨"SIGNATURE_MISMATCH", .odNone⟩],
                           some ⟨pubKey, hashedPayload, r, s⟩⟩

/-! ## Client handshake driver (`connect`, src/browser/src/lib.ts) -/

/-- The driver's `currentState` variable in `connect`
(`src/browser/src/lib.ts`); the spec calls the second state
`SENT_RESPONSE`. -/
inductive ClientState where
  | CONNECTING
  | SENT_CHALLENGE
deriving DecidableEq

/-- Observable effect of delivering one message event to the listener of
`connect` (`src/browser/src/lib.ts`): the next `currentState`;
whether the handshake promise settled (`some none` = resolved,
`some (some e)` = rejected with error message `e`, `none` = still pending);
the `CHALLENGE_RESPONSE` payload sent, if any (base64 signature characters
and hash name); whether `ws.close()` was called; whether the listener was
removed; and whether an exception escaped the listener (the
`decodeBase64` throw, which the code does not catch). -/
structure ListenerEffect where
  nextState : ClientState
  settled : Option (Option String)
  response : Option (List Char × String)
  closed : Bool
  removed : Bool
  threw : Bool
deriving DecidableEq

/-- One activation of the message listener of `connect`
(`src/browser/src/lib.ts`) on an envelope `{type := ty, data := data}`,
with the injected signing capability `sign` (the promise it returns
modelled as `Except`: `.error` is a rejection, caught by the `.catch`
branch which calls `close(e)`). -/
def listenerStep (sign : List Nat → Except String (List Nat))
    (st : ClientState) (ty : String) (data : List Char) : ListenerEffect :=
  match st with
  | .CONNECTING =>
    if ty = "CHALLENGE" then
      match decodeBase64Chars data with
      | none => ⟨.CONNECTING, none, none, false, false, true⟩
      | some bytes =>
        match sign bytes with
        | .ok signature =>
            ⟨.SENT_CHALLENGE, none, some (encodeBase64Chars signature, "SHA-256"),
             false, false, false⟩
        | .error e => ⟨.CONNECTING, some (some e), none, true, true, false⟩
    else
      ⟨.CONNECTING, some (some "Unexpected message. Connection state: CONNECTING\x7d"),
       none, true, true, false⟩
  | .SENT_CHALLENGE =>
    if ty = "SIGNATURE_MATCHES" then
      ⟨.SENT_CHALLENGE, some none, none, false, true, false⟩
    else if ty = "SIGNATURE_MISMATCH" then
      ⟨.SENT_CHALLENGE, some (some "Signature mismatch"), none, true, true, false⟩
    else
      ⟨.SENT_CHALLENGE, some (some "Unexpected message"), none, true, true, false⟩

/-! ## Concrete sample inputs shared by the witnesses -/

/-- A 65-byte uncompressed-point buffer: marker byte 4 followed by two
all-zero 32-byte coordinates.  The pair (0, 0) is not on the P-256
curve. -/
def sampleKeyBytes : List Nat := 4 :: List.replicate 64 0

/-- The identity string for `sampleKeyBytes`. -/
def sampleClientID : List Char :=
  clientIDTag ++ '$' :: encodeBase64Chars sampleKeyBytes

/-- A trivial stand-in for the SHA-256 hash in concrete runs. -/
def shaSample (payload : List Nat) : List Nat := payload.take 4

/-- A verifier that accepts everything. -/
def verifyTrue (_ : PublicKey) (_ : List Nat) (_ _ : Nat) : Bool := true

/-- A verifier that rejects everything. -/
def verifyFalse (_ : PublicKey) (_ : List Nat) (_ _ : Nat) : Bool := false

/-- A concrete 128-byte random challenge. -/
def samplePayload : List Nat := List.replicate 128 0

/-- A signing capability that never fails, for concrete client runs. -/
def signSample (bytes : List Nat) : Except String (List Nat) := .ok (bytes.take 2)

/-! ## Alphabet lemmas -/

theorem b64IndexOf_b64CharOf : ∀ v : Nat, v < 64 → b64IndexOf (b64CharOf v) = some v := by
  decide

theorem b64IndexOf_pad : b64IndexOf '=' = none := by decide

theorem b64CharOf_64 : b64CharOf 64 = '=' := by decide

theorem isB64BodyChar_b64CharOf : ∀ v : Nat, v < 64 → isB64BodyChar (b64CharOf v) = true := by
  decide

theorem b64CharOf_not_special :
    ∀ v : Nat, v < 64 → b64CharOf v ≠ '$' ∧ b64CharOf v ≠ '\n' ∧ b64CharOf v ≠ '\r' := by
  decide

/-! ## Shape of the browser encoder output -/

theorem encodeBase64Chars_one (b1 : Nat) :
    encodeBase64Chars [b1] = [b64CharOf (b1 / 4), b64CharOf ((b1 % 4) * 16), '=', '='] := by
  simp [encodeBase64Chars, encodeBase64Chunk, b64CharOf_64]

theorem encodeBase64Chars_two (b1 b2 : Nat) :
    encodeBase64Chars [b1, b2] =
      [b64CharOf (b1 / 4), b64CharOf ((b1 % 4) * 16 + b2 / 16),
       b64CharOf ((b2 % 16) * 4), '='] := by
  simp [encodeBase64Chars, encodeBase64Chunk, b64CharOf_64]

theorem encodeBase64Chars_cons3 (b1 b2 b3 : Nat) (rest : List Nat) :
    encodeBase64Chars (b1 :: b2 :: b3 :: rest) =
      [b64CharOf (b1 / 4), b64CharOf ((b1 % 4) * 16 + b2 / 16),
       b64CharOf ((b2 % 16) * 4 + b3 / 64), b64CharOf (b3 % 64)]
      ++ encodeBase64Chars rest := by
  simp [encodeBase64Chars, encodeBase64Chunk]

/-! ## Go decode inverts the browser encode -/

theorem stdDecodeGroups_encodeBase64Chars (b : List Nat) :
    (∀ x ∈ b, x < 256) → stdDecodeGroups (encodeBase64Chars b) = some b := by
  induction b using encodeBase64Chars.induct with
  | case1 => intro _; rfl
  | case2 b1 =>
    intro hb
    have h1 : b1 < 256 := hb b1 (by simp)
    rw [encodeBase64Chars_one]
    simp only [stdDecodeGroups, b64IndexOf_b64CharOf _ (show b1 / 4 < 64 by omega),
      b64IndexOf_b64CharOf _ (show (b1 % 4) * 16 < 64 by omega), b64IndexOf_pad]
    simp only [and_self, if_true, reduceIte]
    simp only [Option.some.injEq, List.cons.injEq, and_true]
    omega
  | case3 b1 b2 =>
    intro hb
    have h1 : b1 < 256 := hb b1 (by simp)
    have h2 : b2 < 256 := hb b2 (by simp)
    rw [encodeBase64Chars_two]
    simp only [stdDecodeGroups, b64IndexOf_b64CharOf _ (show b1 / 4 < 64 by omega),
      b64IndexOf_b64CharOf _ (show (b1 % 4) * 16 + b2 / 16 < 64 by omega),
      b64IndexOf_b64CharOf _ (show (b2 % 16) * 4 < 64 by omega), b64IndexOf_pad]
    simp only [and_self, if_true, reduceIte]
    simp only [Option.some.injEq, List.cons.injEq, and_true]
    omega
  | case4 b1 b2 b3 rest ih =>
    intro hb
    have h1 : b1 < 256 := hb b1 (by simp)
    have h2 : b2 < 256 := hb b2 (by simp)
    have h3 : b3 < 256 := hb b3 (by simp)
    have hrest : ∀ x ∈ rest, x < 256 := fun x hx => hb x (by simp [hx])
    rw [encodeBase64Chars_cons3]
    simp only [List.cons_append, List.nil_append, stdDecodeGroups,
      b64IndexOf_b64CharOf _ (show b1 / 4 < 64 by omega),
      b64IndexOf_b64CharOf _ (show (b1 % 4) * 16 + b2 / 16 < 64 by omega),
      b64IndexOf_b64CharOf _ (show (b2 % 16) * 4 + b3 / 64 < 64 by omega),
      b64IndexOf_b64CharOf _ (show b3 % 64 < 64 by omega), List.append_eq]
    rw [ih hrest]
    simp only [Option.some.injEq, List.cons.injEq, and_true, eq_self_iff_true]
    omega

theorem encodeBase64Chars_chars (b : List Nat) :
    (∀ x ∈ b, x < 256) →
      ∀ c ∈ encodeBase64Chars b, isB64BodyChar c = true ∨ c = '=' := by
  induction b using encodeBase64Chars.induct with
  | case1 => intro _ c hc; simp [encodeBase64Chars] at hc
  | case2 b1 =>
    intro hb c hc
    have h1 : b1 < 256 := hb b1 (by simp)
    rw [encodeBase64Chars_one] at hc
    simp only [List.mem_cons, List.not_mem_nil, or_false] at hc
    rcases hc with rfl | rfl | rfl | rfl
    · exact Or.inl (isB64BodyChar_b64CharOf _ (by omega))
    · exact Or.inl (isB64BodyChar_b64CharOf _ (by omega))
    · exact Or.inr rfl
    · exact Or.inr rfl
  | case3 b1 b2 =>
    intro hb c hc
    have h1 : b1 < 256 := hb b1 (by simp)
    have h2 : b2 < 256 := hb b2 (by simp)
    rw [encodeBase64Chars_two] at hc
    simp only [List.mem_cons, List.not_mem_nil, or_false] at hc
    rcases hc with rfl | rfl | rfl | rfl
    · exact Or.inl (isB64BodyChar_b64CharOf _ (by omega))
    · exact Or.inl (isB64BodyChar_b64CharOf _ (by omega))
    · exact Or.inl (isB64BodyChar_b64CharOf _ (by omega))
    · exact Or.inr rfl
  | case4 b1 b2 b3 rest ih =>
    intro hb c hc
    have h1 : b1 < 256 := hb b1 (by simp)
    have h2 : b2 < 256 := hb b2 (by simp)
    have h3 : b3 < 256 := hb b3 (by simp)
    have hrest : ∀ x ∈ rest, x < 256 := fun x hx => hb x (by simp [hx])
    rw [encodeBase64Chars_cons3] at hc
    simp only [List.cons_append, List.nil_append, List.mem_cons] at hc
    rcases hc with rfl | rfl | rfl | rfl | hc
    · exact Or.inl (isB64BodyChar_b64CharOf _ (by omega))
    · exact Or.inl (isB64BodyChar_b64CharOf _ (by omega))
    · exact Or.inl (isB64BodyChar_b64CharOf _ (by omega))
    · exact Or.inl (isB64BodyChar_b64CharOf _ (by omega))
    · exact ih hrest c hc

theorem isB64BodyChar_ne_newline {c : Char} (h : isB64BodyChar c = true) :
    c ≠ '\n' ∧ c ≠ '\r' := by
  constructor
  · rintro rfl; exact absurd h (by decide)
  · rintro rfl; exact absurd h (by decide)

theorem dollar_not_mem_encodeBase64Chars (b : List Nat) (hb : ∀ x ∈ b, x < 256) :
    '$' ∉ encodeBase64Chars b := by
  intro hmem
  rcases encodeBase64Chars_chars b hb '$' hmem with h | h
  · exact absurd h (by decide)
  · exact absurd h (by decide)

theorem newline_filter_encodeBase64Chars (b : List Nat) (hb : ∀ x ∈ b, x < 256) :
    (encodeBase64Chars b).filter (fun c => c ≠ '\n' ∧ c ≠ '\r') = encodeBase64Chars b := by
  apply List.filter_eq_self.mpr
  intro c hc
  rcases encodeBase64Chars_chars b hb c hc with h | rfl
  · have hne := isB64BodyChar_ne_newline h
    simp [hne.1, hne.2]
  · decide

theorem stdDecodeString_encodeBase64Chars (b : List Nat) (hb : ∀ x ∈ b, x < 256) :
    stdDecodeString (encodeBase64Chars b) = some b := by
  unfold stdDecodeString
  rw [newline_filter_encodeBase64Chars b hb, stdDecodeGroups_encodeBase64Chars b hb]

/-! ## Splitting lemmas for the client-identifier string -/

theorem splitOnChar_of_not_mem {sep : Char} {l : List Char} (h : sep ∉ l) :
    splitOnChar sep l = [l] := by
  induction l with
  | nil => rfl
  | cons c rest ih =>
    have hc : c ≠ sep := fun hc => h (hc ▸ List.mem_cons_self c rest)
    have hrest : sep ∉ rest := fun hr => h (List.mem_cons_of_mem c hr)
    simp only [splitOnChar, if_neg hc, ih hrest]

theorem splitOnChar_append_sep {sep : Char} {l1 : List Char} (l2 : List Char)
    (h : sep ∉ l1) :
    splitOnChar sep (l1 ++ sep :: l2) = l1 :: splitOnChar sep l2 := by
  induction l1 with
  | nil => simp [splitOnChar]
  | cons c rest ih =>
    have hc : c ≠ sep := fun hc => h (hc ▸ List.mem_cons_self c rest)
    have hrest : sep ∉ rest := fun hr => h (List.mem_cons_of_mem c hr)
    simp only [List.cons_append, splitOnChar, if_neg hc, List.append_eq, ih hrest]

theorem splitOnChar_tag_enc {rest : List Char} (h : '$' ∉ rest) :
    splitOnChar '$' (clientIDTag ++ '$' :: rest) = [clientIDTag, rest] := by
  rw [splitOnChar_append_sep rest (by decide), splitOnChar_of_not_mem h]

/-- C2: for every 65-byte P-256 point whose first byte is 0x04, decoding
(`parseClientID`) the identity string produced by encoding — the tag
`"WebCrypto-raw.EC.P-256"`, a `$`, and the browser `encodeBase64` of the 65
bytes — succeeds and returns a public key whose X and Y coordinates are the
big-endian integers of bytes 1..32 and 33..64 of the original point. -/
theorem C2_clientID_roundtrip (b : List Nat) (h65 : b.length = 65)
    (h4 : b.headD 0 = 4) (hb : ∀ x ∈ b, x < 256) :
    parseClientID (clientIDTag ++ '$' :: encodeBase64Chars b) =
      .ok ⟨bigIntSetBytes ((b.drop 1).take 32), bigIntSetBytes (b.drop 33), "P-256"⟩ := by
  simp only [parseClientID,
    splitOnChar_tag_enc (dollar_not_mem_encodeBase64Chars b hb)]
  simp only [List.length_cons, List.length_nil, List.getD_cons_zero, List.getD_cons_succ,
    stdDecodeString_encodeBase64Chars b hb, h65, h4]
  simp

/-- C2 witness: the round trip evaluated at the concrete 65-byte point
`sampleKeyBytes`. -/
theorem C2_clientID_roundtrip_witness :
    parseClientID (clientIDTag ++ '$' :: encodeBase64Chars sampleKeyBytes) =
      .ok ⟨bigIntSetBytes ((sampleKeyBytes.drop 1).take 32),
           bigIntSetBytes (sampleKeyBytes.drop 33), "P-256"⟩ :=
  C2_clientID_roundtrip sampleKeyBytes (by decide) (by decide) (by decide)

/-- C9: `parseClientID` performs no on-curve validation.  For every base64
part decoding to a 65-byte buffer with first byte 0x04, parsing succeeds
and returns the key with X and Y read from bytes 1..32 and 33..64 — there
is no curve-membership condition; and concretely, `sampleClientID` parses
to the pair (0, 0), which is not on the P-256 curve. -/
theorem C9_parseClientID_no_curve_check :
    (∀ (rest : List Char) (buff : List Nat), '$' ∉ rest →
      stdDecodeString rest = some buff → buff.length = 65 → buff.headD 0 = 4 →
      parseClientID (clientIDTag ++ '$' :: rest) =
        .ok ⟨bigIntSetBytes ((buff.drop 1).take 32), bigIntSetBytes (buff.drop 33), "P-256"⟩)
    ∧ (¬ onCurveP256 0 0 ∧ parseClientID sampleClientID = .ok ⟨0, 0, "P-256"⟩) := by
  constructor
  · intro rest buff hdollar hdec h65 h4
    simp only [parseClientID, splitOnChar_tag_enc hdollar]
    simp only [List.length_cons, List.length_nil, List.getD_cons_zero, List.getD_cons_succ,
      hdec, h65, h4]
    simp
  · exact ⟨by decide, by rfl⟩

/-- C9 witness: the universally quantified part applied to the base64 text
of `sampleKeyBytes`, whose decoded point (0, 0) is off-curve. -/
theorem C9_parseClientID_no_curve_check_witness :
    parseClientID (clientIDTag ++ '$' :: encodeBase64Chars sampleKeyBytes) =
      .ok ⟨bigIntSetBytes ((sampleKeyBytes.drop 1).take 32),
           bigIntSetBytes (sampleKeyBytes.drop 33), "P-256"⟩ ∧ ¬ onCurveP256 0 0 :=
  ⟨C9_parseClientID_no_curve_check.1 (encodeBase64Chars sampleKeyBytes) sampleKeyBytes
    (by decide) (by decide) (by decide) (by decide),
   C9_parseClientID_no_curve_check.2.1⟩

/-- C3: `parseClientID` fails (with an error, never a default key or a
crash — the function is total into `Except`) exactly when the `$`-split
does not have two parts, the part before `$` is not the P-256 scheme tag,
the part after `$` is not valid standard base64, the decoded length is not
65, or the first decoded byte is not 0x04. -/
theorem C3_parseClientID_error_iff (cid : List Char) :
    (∃ e, parseClientID cid = .error e) ↔
      ((splitOnChar '$' cid).length ≠ 2 ∨
       (splitOnChar '$' cid).getD 0 [] ≠ clientIDTag ∨
       stdDecodeString ((splitOnChar '$' cid).getD 1 []) = none ∨
       (∃ buff, stdDecodeString ((splitOnChar '$' cid).getD 1 []) = some buff ∧
         (buff.length ≠ 65 ∨ buff.headD 0 ≠ 4))) := by
  simp only [parseClientID]
  split
  case isTrue h => exact iff_of_true ⟨_, rfl⟩ (Or.inl h)
  case isFalse h1 =>
    split
    case isTrue h => exact iff_of_true ⟨_, rfl⟩ (Or.inr (Or.inl h))
    case isFalse h2 =>
      split
      case h_1 hdec => exact iff_of_true ⟨_, rfl⟩ (Or.inr (Or.inr (Or.inl hdec)))
      case h_2 buff hdec =>
        split
        case isTrue h65 =>
          exact iff_of_true ⟨_, rfl⟩
            (Or.inr (Or.inr (Or.inr ⟨buff, hdec, Or.inl h65⟩)))
        case isFalse h65 =>
          split
          case isTrue h4 =>
            exact iff_of_true ⟨_, rfl⟩
              (Or.inr (Or.inr (Or.inr ⟨buff, hdec, Or.inr h4⟩)))
          case isFalse h4 =>
            refine iff_of_false ?_ ?_
            · rintro ⟨e, he⟩; exact Except.noConfusion he
            · rintro (h | h | h | ⟨buff', hdec', hbad⟩)
              · exact h1 h
              · exact h2 h
              · rw [hdec] at h; exact Option.noConfusion h
              · rw [hdec] at hdec'
                cases hdec'
                rcases hbad with h | h
                · exact h65 h
                · exact h4 h

/-- C7: once a CLIENT_ID string has been read (the first envelope is a
`CLIENT_ID` whose data unmarshals to the string `cid`), every terminating
run of `Handshake` returns that string, alongside the boolean verdict, to
its caller: the returned `clientID` field equals `cid` whatever happens
afterwards. -/
theorem C7_handshake_returns_clientID
    (sha : List Nat → List Nat) (ver : PublicKey → List Nat → Nat → Nat → Bool)
    (randRead : Except String (List Nat)) (cid : List Char) (r2 : ReadResult) :
    (Handshake sha ver randRead (.rok "CLIENT_ID" (.jstr cid)) r2).clientID = cid := by
  simp only [Handshake, unmarshalString, ne_eq, not_true, ite_false, reduceIte]
  repeat' split
  all_goals rfl

/-- C5: in state AWAIT_CHALLENGE_RESPONSE, a `CHALLENGE_RESPONSE` whose
hash field is anything but `"SHA-256"` makes the server send an
`UNSUPPORTED_HASH` envelope and end rejected (`false` with a nil error);
the result is a fixed record independent of the signature string and with
no recorded verification call, so neither signature decoding nor ECDSA
verification influences the run. -/
theorem C5_unsupported_hash
    (sha : List Nat → List Nat) (ver : PublicKey → List Nat → Nat → Nat → Bool)
    (cid : List Char) (k : PublicKey) (payload : List Nat) (sigStr hashStr : List Char)
    (hparse : parseClientID cid = .ok k) (hlen : ¬ payload.length < challengeByteLength)
    (hhash : hashStr ≠ "SHA-256".data) :
    Handshake sha ver (.ok payload) (.rok "CLIENT_ID" (.jstr cid))
        (.rok "CHALLENGE_RESPONSE" (.jobj sigStr hashStr)) =
      ⟨false, cid, none,
       [⟨"CHALLENGE", .odStr (String.mk (stdEncodeToString payload))⟩,
        ⟨"UNSUPPORTED_HASH", .odStr ("Got hash of type " ++ String.mk hashStr ++
          ", but the only supported hash currently is SHA-256 (more coming soon!)")⟩],
       none⟩ := by
  simp only [Handshake, unmarshalString, unmarshalChallengeResponse, getChallengePayload,
    hparse, ne_eq, reduceIte, if_neg hlen, if_pos hhash]
  simp

/-- C5 witness: hash `"SHA-1"` with a signature string that is not even
valid base64; the server still answers `UNSUPPORTED_HASH` without looking
at the signature. -/
theorem C5_unsupported_hash_witness :
    Handshake shaSample verifyTrue (.ok samplePayload)
        (.rok "CLIENT_ID" (.jstr sampleClientID))
        (.rok "CHALLENGE_RESPONSE" (.jobj "!!!".data "SHA-1".data)) =
      ⟨false, sampleClientID, none,
       [⟨"CHALLENGE", .odStr (String.mk (stdEncodeToString samplePayload))⟩,
        ⟨"UNSUPPORTED_HASH", .odStr ("Got hash of type " ++ String.mk "SHA-1".data ++
          ", but the only supported hash currently is SHA-256 (more coming soon!)")⟩],
       none⟩ :=
  C5_unsupported_hash shaSample verifyTrue sampleClientID ⟨0, 0, "P-256"⟩ samplePayload
    "!!!".data "SHA-1".data (by rfl) (by decide) (by decide)

/-- C6 (amended): a `CHALLENGE_RESPONSE` carrying hash `"SHA-256"` whose
signature decodes from base64 to a byte string of length other than 64
makes the server send a `SIGNATURE_MISMATCH` envelope citing the actual
byte count, end rejected (`false` with a nil error), and record no ECDSA
verification call. -/
theorem C6_signature_length_mismatch
    (sha : List Nat → List Nat) (ver : PublicKey → List Nat → Nat → Nat → Bool)
    (cid : List Char) (k : PublicKey) (payload : List Nat) (sigStr : List Char)
    (sig : List Nat)
    (hparse : parseClientID cid = .ok k) (hlen : ¬ payload.length < challengeByteLength)
    (hdec : stdDecodeString sigStr = some sig) (h64 : sig.length ≠ 64) :
    Handshake sha ver (.ok payload) (.rok "CLIENT_ID" (.jstr cid))
        (.rok "CHALLENGE_RESPONSE" (.jobj sigStr "SHA-256".data)) =
      ⟨false, cid, none,
       [⟨"CHALLENGE", .odStr (String.mk (stdEncodeToString payload))⟩,
        ⟨"SIGNATURE_MISMATCH", .odStr ("Expected a 64 byte signature, but got " ++
          toString sig.length ++ " bytes")⟩],
       none⟩ := by
  simp only [Handshake, unmarshalString, unmarshalChallengeResponse, getChallengePayload,
    hparse, hdec, ne_eq, reduceIte, if_neg hlen, if_pos h64]
  simp

/-- C6 witness: a 32-byte signature is answered by `SIGNATURE_MISMATCH`
citing 32 bytes. -/
theorem C6_signature_length_mismatch_witness :
    Handshake shaSample verifyTrue (.ok samplePayload)
        (.rok "CLIENT_ID" (.jstr sampleClientID))
        (.rok "CHALLENGE_RESPONSE"
          (.jobj (stdEncodeToString (List.replicate 32 0)) "SHA-256".data)) =
      ⟨false, sampleClientID, none,
       [⟨"CHALLENGE", .odStr (String.mk (stdEncodeToString samplePayload))⟩,
        ⟨"SIGNATURE_MISMATCH",
         .odStr ("Expected a 64 byte signature, but got " ++ toString (32 : Nat) ++ " bytes")⟩],
       none⟩ :=
  C6_signature_length_mismatch shaSample verifyTrue sampleClientID ⟨0, 0, "P-256"⟩
    samplePayload (stdEncodeToString (List.replicate 32 0)) (List.replicate 32 0)
    (by rfl) (by decide) (by decide) (by decide)

/-- C6 counterexample to the claim as stated: a `CHALLENGE_RESPONSE` whose
signature decodes to 32 bytes but whose hash field is `"SHA-1"` is answered
by `UNSUPPORTED_HASH`, not by a `SIGNATURE_MISMATCH` citing the byte
count — the short-signature reply only happens on the `"SHA-256"` path. -/
theorem C6_counterexample :
    stdDecodeString (stdEncodeToString (List.replicate 32 0)) = some (List.replicate 32 0)
    ∧ (Handshake shaSample verifyTrue (.ok samplePayload)
        (.rok "CLIENT_ID" (.jstr sampleClientID))
        (.rok "CHALLENGE_RESPONSE"
          (.jobj (stdEncodeToString (List.replicate 32 0)) "SHA-1".data))).sent.map OutMsg.type
        = ["CHALLENGE", "UNSUPPORTED_HASH"] := by
  constructor
  · decide
  · decide

/-- C4 counterexample to the claim as stated: a transport read error while
awaiting the CHALLENGE_RESPONSE does NOT abort silently — the server first
writes a `SERVER_ERROR` envelope.  Concretely, with a valid CLIENT_ID
followed by a failed second read, the error is propagated and the sent
envelopes are `CHALLENGE` then `SERVER_ERROR`. -/
theorem C4_counterexample :
    (Handshake shaSample verifyTrue (.ok samplePayload)
        (.rok "CLIENT_ID" (.jstr sampleClientID)) (.rerr "connection reset")).err
      = some "connection reset"
    ∧ (Handshake shaSample verifyTrue (.ok samplePayload)
        (.rok "CLIENT_ID" (.jstr sampleClientID)) (.rerr "connection reset")).sent.map
          OutMsg.type = ["CHALLENGE", "SERVER_ERROR"] := by
  constructor
  · decide
  · decide

/-- C4 (amended): a transport read or parse error always aborts the
handshake with the rejected outcome (`false`) and propagates the I/O error
to the caller; an error on the initial read sends nothing, but an error on
the read awaiting the CHALLENGE_RESPONSE first sends a `SERVER_ERROR`
envelope after the already-sent `CHALLENGE`. -/
theorem C4_read_error_behaviour
    (sha : List Nat → List Nat) (ver : PublicKey → List Nat → Nat → Nat → Bool)
    (randRead : Except String (List Nat)) (r2 : ReadResult) :
    (∀ e, Handshake sha ver randRead (.rerr e) r2 = ⟨false, [], some e, [], none⟩)
    ∧ (∀ e cid k payload, parseClientID cid = .ok k → randRead = .ok payload →
        ¬ payload.length < challengeByteLength →
        Handshake sha ver randRead (.rok "CLIENT_ID" (.jstr cid)) (.rerr e) =
          ⟨false, cid, some e,
           [⟨"CHALLENGE", .odStr (String.mk (stdEncodeToString payload))⟩,
            ⟨"SERVER_ERROR", .odKV "Failed to read CHALLENGE_RESPONSE" (some e)⟩],
           none⟩) := by
  constructor
  · intro e; rfl
  · intro e cid k payload hparse hrand hlen
    subst hrand
    simp only [Handshake, unmarshalString, getChallengePayload, hparse, ne_eq, not_true,
      ite_false, reduceIte, if_neg hlen]
    simp

/-- C4 witness: both amended behaviours at concrete inputs — a failed
first read returns the error with nothing sent, and a failed second read
returns the error with `CHALLENGE` and `SERVER_ERROR` sent. -/
theorem C4_read_error_behaviour_witness :
    Handshake shaSample verifyTrue (.ok samplePayload) (.rerr "boom")
        (.rok "CLIENT_ID" (.jstr sampleClientID)) = ⟨false, [], some "boom", [], none⟩
    ∧ Handshake shaSample verifyTrue (.ok samplePayload)
        (.rok "CLIENT_ID" (.jstr sampleClientID)) (.rerr "boom") =
      ⟨false, sampleClientID, some "boom",
       [⟨"CHALLENGE", .odStr (String.mk (stdEncodeToString samplePayload))⟩,
        ⟨"SERVER_ERROR", .odKV "Failed to read CHALLENGE_RESPONSE" (some "boom")⟩],
       none⟩ :=
  ⟨(C4_read_error_behaviour shaSample verifyTrue (.ok samplePayload)
      (.rok "CLIENT_ID" (.jstr sampleClientID))).1 "boom",
   (C4_read_error_behaviour shaSample verifyTrue (.ok samplePayload)
      (.rerr "boom")).2 "boom" sampleClientID ⟨0, 0, "P-256"⟩ samplePayload
      (by rfl) rfl (by decide)⟩

/-- C1: whenever a handshake run reaches ECDSA verification, the message
argument of the verification call is `sha256` of the challenge payload —
never the raw payload itself — and that same payload is exactly what was
sent, base64-encoded, in the `CHALLENGE` envelope of this run; under the
`rand.Read` contract it is 128 bytes long. -/
theorem C1_verification_hashes_challenge
    (sha : List Nat → List Nat) (ver : PublicKey → List Nat → Nat → Nat → Bool)
    (randRead : Except String (List Nat)) (r1 r2 : ReadResult) (call : VerifyCall)
    (hrand : ∀ b, randRead = .ok b → b.length = challengeByteLength)
    (hcall : (Handshake sha ver randRead r1 r2).verified = some call) :
    ∃ payload, randRead = .ok payload ∧ payload.length = 128 ∧
      call.hash = sha payload ∧
      (⟨"CHALLENGE", .odStr (String.mk (stdEncodeToString payload))⟩ : OutMsg)
        ∈ (Handshake sha ver randRead r1 r2).sent := by
  cases r1 with
  | rerr e => simp [Handshake] at hcall
  | rok ty d =>
    by_cases hty : ty = "CLIENT_ID"
    · subst hty
      cases d with
      | jobj s h => simp [Handshake, unmarshalString] at hcall
      | jbad => simp [Handshake, unmarshalString] at hcall
      | jstr cid =>
        rcases hparse : parseClientID cid with e | k
        · simp [Handshake, unmarshalString, hparse] at hcall
        · cases randRead with
          | error e =>
            simp [Handshake, unmarshalString, hparse, getChallengePayload] at hcall
          | ok payload =>
            have hplen : payload.length = challengeByteLength := hrand payload rfl
            by_cases hlen : payload.length < challengeByteLength
            · omega
            · cases r2 with
              | rerr e =>
                simp [Handshake, unmarshalString, hparse, getChallengePayload,
                  if_neg hlen] at hcall
              | rok ty2 d2 =>
                by_cases hty2 : ty2 = "CHALLENGE_RESPONSE"
                · subst hty2
                  cases d2 with
                  | jstr s2 =>
                    simp [Handshake, unmarshalString, unmarshalChallengeResponse,
                      hparse, getChallengePayload, if_neg hlen] at hcall
                  | jbad =>
                    simp [Handshake, unmarshalString, unmarshalChallengeResponse,
                      hparse, getChallengePayload, if_neg hlen] at hcall
                  | jobj sigStr hashStr =>
                    by_cases hhash : hashStr = "SHA-256".data
                    · subst hhash
                      rcases hdec : stdDecodeString sigStr with _ | sig
                      · simp [Handshake, unmarshalString, unmarshalChallengeResponse,
                          hparse, getChallengePayload, if_neg hlen, hdec] at hcall
                      · by_cases h64 : sig.length = 64
                        · by_cases hv : ver k (sha payload) (bigIntSetBytes (sig.take 32))
                            (bigIntSetBytes (sig.drop 32))
                          · refine ⟨payload, rfl, hplen, ?_, ?_⟩
                            · simp only [Handshake, unmarshalString,
                                unmarshalChallengeResponse, hparse, getChallengePayload,
                                if_neg hlen, hdec, h64, hv, ne_eq, not_true, ite_false,
                                ite_true, Bool.false_eq_true, reduceIte,
                                Option.some.injEq] at hcall
                              subst hcall
                              rfl
                            · simp_all [Handshake, unmarshalString,
                                unmarshalChallengeResponse, hparse, getChallengePayload,
                                if_neg hlen, hdec, h64, hv]
                          · refine ⟨payload, rfl, hplen, ?_, ?_⟩
                            · simp only [Handshake, unmarshalString,
                                unmarshalChallengeResponse, hparse, getChallengePayload,
                                if_neg hlen, hdec, h64, hv, ne_eq, not_true, ite_false,
                                ite_true, Bool.false_eq_true, reduceIte,
                                Option.some.injEq] at hcall
                              subst hcall
                              rfl
                            · simp_all [Handshake, unmarshalString,
                                unmarshalChallengeResponse, hparse, getChallengePayload,
                                if_neg hlen, hdec, h64, hv]
                        · simp [Handshake, unmarshalString, unmarshalChallengeResponse,
                            hparse, getChallengePayload, if_neg hlen, hdec, h64] at hcall
                    · simp [Handshake, unmarshalString, unmarshalChallengeResponse,
                        hparse, getChallengePayload, if_neg hlen, hhash] at hcall
                · simp [Handshake, unmarshalString, hparse, getChallengePayload,
                    if_neg hlen, hty2] at hcall
    · simp [Handshake, hty] at hcall

/-- C1 witness: a complete concrete run that reaches verification, with
the all-zero 128-byte challenge and an always-accepting verifier. -/
theorem C1_verification_hashes_challenge_witness :
    ∃ payload, (.ok samplePayload : Except String (List Nat)) = .ok payload ∧
      payload.length = 128 ∧
      (⟨⟨0, 0, "P-256"⟩, shaSample samplePayload, 0, 0⟩ : VerifyCall).hash
        = shaSample payload ∧
      (⟨"CHALLENGE", .odStr (String.mk (stdEncodeToString payload))⟩ : OutMsg)
        ∈ (Handshake shaSample verifyTrue (.ok samplePayload)
            (.rok "CLIENT_ID" (.jstr sampleClientID))
            (.rok "CHALLENGE_RESPONSE"
              (.jobj (stdEncodeToString (List.replicate 64 0)) "SHA-256".data))).sent :=
  C1_verification_hashes_challenge shaSample verifyTrue (.ok samplePayload)
    (.rok "CLIENT_ID" (.jstr sampleClientID))
    (.rok "CHALLENGE_RESPONSE" (.jobj (stdEncodeToString (List.replicate 64 0)) "SHA-256".data))
    ⟨⟨0, 0, "P-256"⟩, shaSample samplePayload, 0, 0⟩
    (by intro b hb; cases hb; rfl) (by decide)

/-- C8: in the driver's SENT_RESPONSE state (`"SENT_CHALLENGE"` in the
source), `SIGNATURE_MATCHES` resolves the handshake promise without closing
the transport, `SIGNATURE_MISMATCH` rejects it with an error and closes the
transport, every other envelope type rejects it with an error and closes
the transport, and no envelope type leaves the promise unsettled. -/
theorem C8_sent_response_dispositions (sign : List Nat → Except String (List Nat)) :
    (∀ d, listenerStep sign .SENT_CHALLENGE "SIGNATURE_MATCHES" d =
        ⟨.SENT_CHALLENGE, some none, none, false, true, false⟩)
    ∧ (∀ d, listenerStep sign .SENT_CHALLENGE "SIGNATURE_MISMATCH" d =
        ⟨.SENT_CHALLENGE, some (some "Signature mismatch"), none, true, true, false⟩)
    ∧ (∀ ty d, ty ≠ "SIGNATURE_MATCHES" → ty ≠ "SIGNATURE_MISMATCH" →
        listenerStep sign .SENT_CHALLENGE ty d =
          ⟨.SENT_CHALLENGE, some (some "Unexpected message"), none, true, true, false⟩)
    ∧ (∀ ty d, (listenerStep sign .SENT_CHALLENGE ty d).settled.isSome = true) := by
  refine ⟨fun d => rfl, fun d => rfl, ?_, ?_⟩
  · intro ty d h1 h2
    simp [listenerStep, h1, h2]
  · intro ty d
    by_cases h1 : ty = "SIGNATURE_MATCHES"
    · simp [listenerStep, h1]
    · by_cases h2 : ty = "SIGNATURE_MISMATCH"
      · simp [listenerStep, h1, h2]
      · simp [listenerStep, h1, h2]

/-- C8 witness: the unexpected-type and always-settled parts applied to a
concrete `CHALLENGE` envelope arriving in the SENT_RESPONSE state. -/
theorem C8_sent_response_dispositions_witness :
    listenerStep signSample .SENT_CHALLENGE "CHALLENGE" [] =
      ⟨.SENT_CHALLENGE, some (some "Unexpected message"), none, true, true, false⟩
    ∧ (listenerStep signSample .SENT_CHALLENGE "CHALLENGE" []).settled.isSome = true :=
  ⟨(C8_sent_response_dispositions signSample).2.2.1 "CHALLENGE" [] (by decide) (by decide),
   (C8_sent_response_dispositions signSample).2.2.2 "CHALLENGE" []⟩

/-! ## Browser decoder inverts the browser encoder (support for C10) -/

theorem encodeBase64Chars_length (b : List Nat) :
    (encodeBase64Chars b).length = (b.length + 2) / 3 * 4 := by
  induction b using encodeBase64Chars.induct with
  | case1 => rfl
  | case2 b1 =>
    rw [encodeBase64Chars_one]
    simp only [List.length_cons, List.length_nil]
  | case3 b1 b2 =>
    rw [encodeBase64Chars_two]
    simp only [List.length_cons, List.length_nil]
  | case4 b1 b2 b3 rest ih =>
    rw [encodeBase64Chars_cons3]
    simp only [List.length_append, List.length_cons, List.length_nil, ih]
    omega

theorem isB64BodyChar_ne_pad {c : Char} (h : isB64BodyChar c = true) : c ≠ '=' := by
  rintro rfl; exact absurd h (by decide)

theorem takeWhile_pad (k : Nat) :
    (List.replicate k '=').takeWhile isB64BodyChar = [] := by
  cases k with
  | zero => rfl
  | succ n =>
    have h : isB64BodyChar '=' = false := by decide
    simp [List.replicate_succ, List.takeWhile_cons, h]

theorem takeWhile_body_pad (body : List Char) (k : Nat)
    (hbody : ∀ c ∈ body, isB64BodyChar c = true) :
    (body ++ List.replicate k '=').takeWhile isB64BodyChar = body := by
  induction body with
  | nil => simpa using takeWhile_pad k
  | cons c rest ih =>
    have hc := hbody c (by simp)
    have hrest : ∀ x ∈ rest, isB64BodyChar x = true := fun x hx => hbody x (by simp [hx])
    simp [List.takeWhile_cons, hc, ih hrest]

theorem encodeBase64Chars_split (b : List Nat) :
    (∀ x ∈ b, x < 256) →
      ∃ body, encodeBase64Chars b = body ++ List.replicate ((3 - b.length % 3) % 3) '=' ∧
        ∀ c ∈ body, isB64BodyChar c = true := by
  induction b using encodeBase64Chars.induct with
  | case1 => intro _; exact ⟨[], rfl, by simp⟩
  | case2 b1 =>
    intro hb
    have h1 : b1 < 256 := hb b1 (by simp)
    refine ⟨[b64CharOf (b1 / 4), b64CharOf ((b1 % 4) * 16)], ?_, ?_⟩
    · rw [encodeBase64Chars_one]; rfl
    · intro c hc
      simp only [List.mem_cons, List.not_mem_nil, or_false] at hc
      rcases hc with rfl | rfl
      · exact isB64BodyChar_b64CharOf _ (by omega)
      · exact isB64BodyChar_b64CharOf _ (by omega)
  | case3 b1 b2 =>
    intro hb
    have h1 : b1 < 256 := hb b1 (by simp)
    have h2 : b2 < 256 := hb b2 (by simp)
    refine ⟨[b64CharOf (b1 / 4), b64CharOf ((b1 % 4) * 16 + b2 / 16),
             b64CharOf ((b2 % 16) * 4)], ?_, ?_⟩
    · rw [encodeBase64Chars_two]; rfl
    · intro c hc
      simp only [List.mem_cons, List.not_mem_nil, or_false] at hc
      rcases hc with rfl | rfl | rfl
      · exact isB64BodyChar_b64CharOf _ (by omega)
      · exact isB64BodyChar_b64CharOf _ (by omega)
      · exact isB64BodyChar_b64CharOf _ (by omega)
  | case4 b1 b2 b3 rest ih =>
    intro hb
    have h1 : b1 < 256 := hb b1 (by simp)
    have h2 : b2 < 256 := hb b2 (by simp)
    have h3 : b3 < 256 := hb b3 (by simp)
    have hrest : ∀ x ∈ rest, x < 256 := fun x hx => hb x (by simp [hx])
    obtain ⟨body, hbe, hbc⟩ := ih hrest
    have hmod : (b1 :: b2 :: b3 :: rest).length % 3 = rest.length % 3 := by
      simp only [List.length_cons]; omega
    refine ⟨[b64CharOf (b1 / 4), b64CharOf ((b1 % 4) * 16 + b2 / 16),
             b64CharOf ((b2 % 16) * 4 + b3 / 64), b64CharOf (b3 % 64)] ++ body, ?_, ?_⟩
    · rw [encodeBase64Chars_cons3, hmod, hbe]
      simp [List.append_assoc]
    · intro c hc
      simp only [List.mem_append, List.mem_cons, List.not_mem_nil, or_false] at hc
      rcases hc with (rfl | rfl | rfl | rfl) | hc
      · exact isB64BodyChar_b64CharOf _ (by omega)
      · exact isB64BodyChar_b64CharOf _ (by omega)
      · exact isB64BodyChar_b64CharOf _ (by omega)
      · exact isB64BodyChar_b64CharOf _ (by omega)
      · exact hbc c hc

theorem decodeB64Stream_encode (b : List Nat) :
    (∀ x ∈ b, x < 256) →
      decodeB64Stream (encodeBase64Chars b) =
        b ++ List.replicate ((3 - b.length % 3) % 3) 255 := by
  induction b using encodeBase64Chars.induct with
  | case1 => intro _; rfl
  | case2 b1 =>
    intro hb
    have h1 : b1 < 256 := hb b1 (by simp)
    rw [encodeBase64Chars_one]
    simp only [decodeB64Stream, decodeB64Group,
      b64IndexOf_b64CharOf _ (show b1 / 4 < 64 by omega),
      b64IndexOf_b64CharOf _ (show (b1 % 4) * 16 < 64 by omega), b64IndexOf_pad]
    simp only [List.cons_append, List.nil_append, List.cons.injEq, List.length_cons]
    refine ⟨by omega, ?_⟩
    rfl
  | case3 b1 b2 =>
    intro hb
    have h1 : b1 < 256 := hb b1 (by simp)
    have h2 : b2 < 256 := hb b2 (by simp)
    rw [encodeBase64Chars_two]
    simp only [decodeB64Stream, decodeB64Group,
      b64IndexOf_b64CharOf _ (show b1 / 4 < 64 by omega),
      b64IndexOf_b64CharOf _ (show (b1 % 4) * 16 + b2 / 16 < 64 by omega),
      b64IndexOf_b64CharOf _ (show (b2 % 16) * 4 < 64 by omega), b64IndexOf_pad]
    simp only [List.cons_append, List.nil_append, List.cons.injEq, List.length_cons]
    refine ⟨by omega, by omega, ?_⟩
    rfl
  | case4 b1 b2 b3 rest ih =>
    intro hb
    have h1 : b1 < 256 := hb b1 (by simp)
    have h2 : b2 < 256 := hb b2 (by simp)
    have h3 : b3 < 256 := hb b3 (by simp)
    have hrest : ∀ x ∈ rest, x < 256 := fun x hx => hb x (by simp [hx])
    rw [encodeBase64Chars_cons3]
    simp only [List.cons_append, List.nil_append, decodeB64Stream, decodeB64Group,
      b64IndexOf_b64CharOf _ (show b1 / 4 < 64 by omega),
      b64IndexOf_b64CharOf _ (show (b1 % 4) * 16 + b2 / 16 < 64 by omega),
      b64IndexOf_b64CharOf _ (show (b2 % 16) * 4 + b3 / 64 < 64 by omega),
      b64IndexOf_b64CharOf _ (show b3 % 64 < 64 by omega), List.append_eq, List.nil_append]
    rw [ih hrest]
    have hmod : (b1 :: b2 :: b3 :: rest).length % 3 = rest.length % 3 := by
      simp only [List.length_cons]; omega
    rw [hmod]
    simp only [List.cons_append, List.cons.injEq, List.length_cons]
    exact ⟨by omega, by omega, by omega, trivial⟩

theorem decodeBase64Chars_encodeBase64Chars (b : List Nat)
    (hb : ∀ x ∈ b, x < 256) (hne : b ≠ []) :
    decodeBase64Chars (encodeBase64Chars b) = some b := by
  obtain ⟨body, henc, hbody⟩ := encodeBase64Chars_split b hb
  have hk2 : (3 - b.length % 3) % 3 ≤ 2 := by omega
  have hlen := encodeBase64Chars_length b
  have hblen : 1 ≤ b.length := List.length_pos.mpr hne
  have hlen2 : (encodeBase64Chars b).length = body.length + (3 - b.length % 3) % 3 := by
    rw [henc]; simp [List.length_append]
  have hbodyne : body ≠ [] := by
    intro h
    rw [h] at hlen2
    simp at hlen2
    omega
  obtain ⟨c0, body', hbrev⟩ : ∃ c0 t, body.reverse = c0 :: t := by
    cases hr : body.reverse with
    | nil => exact absurd (List.reverse_eq_nil_iff.mp hr) hbodyne
    | cons c t => exact ⟨c, t, rfl⟩
  have hc0 : isB64BodyChar c0 = true := by
    refine hbody c0 ?_
    have : c0 ∈ body.reverse := by rw [hbrev]; simp
    simpa using this
  have hc0ne : c0 ≠ '=' := isB64BodyChar_ne_pad hc0
  have hrev : (encodeBase64Chars b).reverse =
      List.replicate ((3 - b.length % 3) % 3) '=' ++ (c0 :: body') := by
    rw [henc, List.reverse_append, List.reverse_replicate, hbrev]
  have hvalid : validB64 (encodeBase64Chars b) = true := by
    simp only [validB64]
    rw [henc, takeWhile_body_pad body _ hbody, List.drop_left]
    have hbe : body.isEmpty = false := by simpa [List.isEmpty_eq_false] using hbodyne
    rcases (show (3 - b.length % 3) % 3 = 0 ∨ (3 - b.length % 3) % 3 = 1 ∨
        (3 - b.length % 3) % 3 = 2 by omega) with h | h | h <;>
      simp [h, hbe]
  have hpad : (if listEndsWith (encodeBase64Chars b) ['=', '='] then (2 : Nat)
      else if listEndsWith (encodeBase64Chars b) ['='] then 1 else 0)
      = (3 - b.length % 3) % 3 := by
    rcases (show (3 - b.length % 3) % 3 = 0 ∨ (3 - b.length % 3) % 3 = 1 ∨
        (3 - b.length % 3) % 3 = 2 by omega) with h | h | h
    · rw [h] at hrev
      rw [List.replicate_zero, List.nil_append] at hrev
      rw [h]
      simp [listEndsWith, hrev, hc0ne]
    · rw [h] at hrev
      rw [show List.replicate 1 '=' = ['='] from rfl] at hrev
      rw [h]
      simp [listEndsWith, hrev, hc0ne]
    · rw [h] at hrev
      rw [show List.replicate 2 '=' = ['=', '='] from rfl] at hrev
      rw [h]
      simp [listEndsWith, hrev]
  have h8 : ((encodeBase64Chars b).length * 6) % 8 = 0 := by rw [hlen]; omega
  have htake : (encodeBase64Chars b).length * 6 / 8 - (3 - b.length % 3) % 3 = b.length := by
    rw [hlen]; omega
  simp only [decodeBase64Chars, hvalid, Bool.not_true, Bool.false_eq_true, ite_false, h8,
    ne_eq, not_true_eq_false, not_false_eq_true, ite_true]
  rw [hpad, htake, decodeB64Stream_encode b hb, List.take_left]

/-- C10: the client-side base64 codec rejects the empty string:
`decodeBase64` throws on the empty string (modelled as `none`), while
`encodeBase64` of an empty buffer returns the empty string, so the round
trip `decodeBase64 (encodeBase64 b) = b` holds for every non-empty byte
buffer `b` but fails by exception when `b` is empty. -/
theorem C10_base64_empty_roundtrip :
    decodeBase64Chars "".data = none
    ∧ encodeBase64Chars ([] : List Nat) = []
    ∧ (∀ b : List Nat, b ≠ [] → (∀ x ∈ b, x < 256) →
        decodeBase64Chars (encodeBase64Chars b) = some b)
    ∧ decodeBase64Chars (encodeBase64Chars ([] : List Nat)) = none := by
  refine ⟨by decide, rfl, ?_, by decide⟩
  intro b hne hb
  exact decodeBase64Chars_encodeBase64Chars b hb hne

/-- C10 witness: the round trip evaluated on the concrete non-empty buffer
`[77, 97, 110]` together with the empty-string rejection. -/
theorem C10_base64_empty_roundtrip_witness :
    decodeBase64Chars (encodeBase64Chars [77, 97, 110]) = some [77, 97, 110]
    ∧ decodeBase64Chars "".data = none :=
  ⟨C10_base64_empty_roundtrip.2.2.1 [77, 97, 110] (by decide) (by decide),
   C10_base64_empty_roundtrip.1⟩

section Scratch

example :
    (Handshake shaSample verifyTrue (.ok samplePayload)
      (.rok "CLIENT_ID" (.jstr sampleClientID))
      (.rok "CHALLENGE_RESPONSE"
        (.jobj (stdEncodeToString (List.replicate 64 0)) "SHA-256".data))).ok = true := by
  decide

example :
    (Handshake shaSample verifyTrue (.ok samplePayload)
      (.rok "CLIENT_ID" (.jstr sampleClientID))
      (.rerr "boom")).sent.map OutMsg.type = ["CHALLENGE", "SERVER_ERROR"] := by
  decide

example : encodeBase64Chars [77, 97, 110] = "TWFu".data := by decide
example : encodeBase64Chars [77, 97] = "TWE=".data := by decide
example : encodeBase64Chars [77] = "TQ==".data := by decide
example : decodeBase64Chars "TWFu".data = some [77, 97, 110] := by decide
example : decodeBase64Chars "TWE=".data = some [77, 97] := by decide
example : decodeBase64Chars "TQ==".data = some [77] := by decide
example : decodeBase64Chars "".data = none := by decide
example : stdDecodeString "TWE=".data = some [77, 97] := by decide
example : stdDecodeString "TWE".data = none := by decide
example : stdEncodeToString [77, 97] = "TWE=".data := by decide
example : splitOnChar '$' "a$b".data = ["a".data, "b".data] := by decide
example : splitOnChar '$' "a$b$c".data = ["a".data, "b".data, "c".data] := by decide
example : splitOnChar '$' [] = [[]] := by decide

end Scratch
